import Mathlib

/-!
Verification of the resilient scheduling data-access layer of the
agente_citas_ventas repository: the deduplicating schedule cache
(citas_ventas/services/horario_cache.py), the shared retry/circuit-breaker
helper (ventas/services/_resilience.py), the business-context fetcher
(ventas/services/contexto_negocio.py) and the appointment validator and
recommendation engine (citas_ventas/services/schedule_validator.py).

Python strings are modelled by Lean `String` and all string manipulation is
re-implemented with structural recursion over `String.data` so that concrete
runs reduce inside the kernel.  Machine-level details that cannot influence
the verified behaviour (logging, metric emission, payload construction for
the HTTP POST bodies) are omitted; every branch decision of the source is
kept.
-/

namespace AgenteCitas

/-! ### ASCII string helpers (Python str.strip / str.upper / split / replace) -/

/-- Uppercase one ASCII character, as Python str.upper does on ASCII input.
Non-ASCII letters are left unchanged; the sentinel comparisons in the source
only involve ASCII strings, where this agrees with Python. -/
def upChar (c : Char) : Char :=
  if 'a' ≤ c ∧ c ≤ 'z' then Char.ofNat (c.toNat - 32) else c

/-- Whitespace characters removed by Python str.strip(). -/
def isWs (c : Char) : Bool :=
  c == ' ' || c == '\t' || c == '\n' || c == '\r' || c == '\x0b' || c == '\x0c'

def dropWhileWs : List Char → List Char
  | [] => []
  | c :: cs => if isWs c then dropWhileWs cs else c :: cs

/-- Python s.strip(). -/
def pyStrip (s : String) : String :=
  ⟨(dropWhileWs (dropWhileWs s.data).reverse).reverse⟩

/-- Python s.rstrip() (used to model the whitespace the %p directive eats). -/
def pyRStrip (s : String) : String :=
  ⟨(dropWhileWs s.data.reverse).reverse⟩

/-- Python s.upper() on ASCII data. -/
def pyUpper (s : String) : String := ⟨s.data.map upChar⟩

/-- Python s.endswith(suf). -/
def pyEndsWith (s suf : String) : Bool :=
  List.isPrefixOf suf.data.reverse s.data.reverse

/-- Drop the final two characters (s[:-2]). -/
def dropLast2 (s : String) : String := ⟨s.data.dropLast.dropLast⟩

def digitVal? (c : Char) : Option Nat :=
  if '0' ≤ c ∧ c ≤ '9' then some (c.toNat - 48) else none

def natOfDigits : List Char → Nat → Option Nat
  | [], acc => some acc
  | c :: cs, acc =>
    match digitVal? c with
    | some d => natOfDigits cs (acc * 10 + d)
    | none => none

/-- Parse a nonempty all-digit string into a Nat (the digit groups matched by
the strptime directives). -/
def pyToNat? (s : String) : Option Nat :=
  match s.data with
  | [] => none
  | c :: cs => natOfDigits (c :: cs) 0

/-- Fuel-driven split on a separator, Python s.split(sep) semantics. -/
def splitAuxL (sep : List Char) : Nat → List Char → List Char → List (List Char)
  | 0, rest, acc => [acc.reverse ++ rest]
  | _ + 1, [], acc => [acc.reverse]
  | n + 1, c :: rest, acc =>
    if List.isPrefixOf sep (c :: rest) then
      acc.reverse :: splitAuxL sep n (List.drop sep.length (c :: rest)) []
    else
      splitAuxL sep n rest (c :: acc)

/-- Python s.split(sep) for a nonempty separator. -/
def pySplit (s sep : String) : List String :=
  (splitAuxL sep.data (s.data.length + 1) s.data []).map (fun l => ⟨l⟩)

/-- Python s.replace(pat, repl) = split on pat then interleave repl. -/
def pyReplace (s pat repl : String) : String :=
  ⟨List.intercalate repl.data (splitAuxL pat.data (s.data.length + 1) s.data [])⟩

/-- Python (pat in s) for nonempty pat. -/
def pyContains (s pat : String) : Bool :=
  1 < (pySplit s pat).length

/-! ### Digit-group parsing shared by the strptime directives -/

/-- A 1-or-2-digit group whose value lies in [lo, hi]; this is the shape of
the regexes CPython strptime compiles for %I (1..12), %H (0..23), %M (0..59),
%d (1..31) and %m (1..12). -/
def parse2dig (s : String) (lo hi : Nat) : Option Nat :=
  if s.length = 0 ∨ 2 < s.length then none
  else
    match pyToNat? s with
    | some n => if lo ≤ n ∧ n ≤ hi then some n else none
    | none => none

/-! ### Times of day -/

structure TimeHM where
  hour : Nat
  minute : Nat
deriving DecidableEq, Repr

/-- Minutes since midnight; Python time() objects compare exactly like this
key for in-range values. -/
def TimeHM.key (t : TimeHM) : Nat := t.hour * 60 + t.minute

/-- Parse "H:M" where the hour group must lie in [lo, hi]. -/
def parseHM (s : String) (lo hi : Nat) : Option TimeHM :=
  match pySplit s ":" with
  | [hs, ms] =>
    match parse2dig hs lo hi, parse2dig ms 0 59 with
    | some h, some m => some ⟨h, m⟩
    | _, _ => none
  | _ => none

/-- Embeds ScheduleValidator._parse_time: strip and uppercase, then try the
formats %I:%M %p, %I:%M%p and %H:%M in order, returning a 24-hour time. -/
def parse_time (s0 : String) : Option TimeHM :=
  let s := pyUpper (pyStrip s0)
  if pyEndsWith s "AM" || pyEndsWith s "PM" then
    match parseHM (pyRStrip (dropLast2 s)) 1 12 with
    | some t =>
      let h24 :=
        if pyEndsWith s "PM" then (if t.hour = 12 then 12 else t.hour + 12)
        else (if t.hour = 12 then 0 else t.hour)
      some ⟨h24, t.minute⟩
    | none => parseHM s 0 23
  else parseHM s 0 23

/-- Embeds ScheduleValidator._parse_time_range: split on "-" after removing
spaces, falling back to splitting the original string on " - ". -/
def parse_time_range (r : String) : Option (TimeHM × TimeHM) :=
  if r = "" then none
  else
    let nospace := pyReplace r " " ""
    let parts := pySplit nospace "-"
    let parts2 := if parts.length = 2 then parts else pySplit r " - "
    match parts2 with
    | [a, b] =>
      match parse_time (pyStrip a), parse_time (pyStrip b) with
      | some x, some y => some (x, y)
      | _, _ => none
    | _ => none

/-! ### Calendar dates -/

def isLeap (y : Nat) : Bool := (y % 4 == 0 && y % 100 != 0) || y % 400 == 0

def diasEnMes (y m : Nat) : Nat :=
  if m = 2 then (if isLeap y then 29 else 28)
  else if m = 4 ∨ m = 6 ∨ m = 9 ∨ m = 11 then 30
  else 31

/-- Embeds datetime.strptime(s, "%Y-%m-%d"): four-digit year, 1-2 digit month
and day, and the date must exist in the calendar. -/
def parse_date (s : String) : Option (Nat × Nat × Nat) :=
  match pySplit s "-" with
  | [ys, ms, ds] =>
    if ys.length = 4 then
      match pyToNat? ys, parse2dig ms 1 12, parse2dig ds 1 31 with
      | some y, some m, some d =>
        if 1 ≤ y ∧ d ≤ diasEnMes y m then some (y, m, d) else none
      | _, _, _ => none
    else none
  | _ => none

/-- Python date.weekday() (Monday = 0 … Sunday = 6), via Zeller's congruence. -/
def pyWeekday (y m d : Nat) : Nat :=
  let y2 := if m ≤ 2 then y - 1 else y
  let m2 := if m ≤ 2 then m + 12 else m
  let K := y2 % 100
  let J := y2 / 100
  let h := (d + (13 * (m2 + 1)) / 5 + K + K / 4 + J / 4 + 5 * J) % 7
  (h + 5) % 7

def nextDay : Nat × Nat × Nat → Nat × Nat × Nat
  | (y, m, d) =>
    if d < diasEnMes y m then (y, m, d + 1)
    else if m < 12 then (y, m + 1, 1)
    else (y + 1, 1, 1)

def addDays : Nat × Nat × Nat → Nat → Nat × Nat × Nat
  | ymd, 0 => ymd
  | ymd, n + 1 => addDays (nextDay ymd) n

/-! ### Naive datetimes (Python datetime without tzinfo, minute precision)

The appointment datetimes built by the validator always carry second = 0 and
microsecond = 0, so comparing the clock reading truncated to whole minutes is
equivalent to Python's full comparison; DT therefore stops at minutes. -/

structure DT where
  year : Nat
  month : Nat
  day : Nat
  hour : Nat
  minute : Nat
deriving DecidableEq, Repr

/-- Mixed-radix key; Python datetime comparison agrees with comparing this
key whenever the fields are calendar-valid (month ≤ 12, day ≤ 31, …). -/
def DT.key (t : DT) : Nat :=
  (((t.year * 13 + t.month) * 32 + t.day) * 24 + t.hour) * 60 + t.minute

/-- Adding a timedelta of whole minutes, with day/month/year rollover. -/
def DT.addMinutes (t : DT) (mins : Nat) : DT :=
  let total := t.hour * 60 + t.minute + mins
  let ymd := addDays (t.year, t.month, t.day) (total / 1440)
  ⟨ymd.1, ymd.2.1, ymd.2.2, (total % 1440) / 60, total % 60⟩

/-! ### strftime fragments used in the user-facing messages -/

def pad2 (n : Nat) : String := if n < 10 then "0" ++ toString n else toString n

def pad4 (n : Nat) : String :=
  if n < 10 then "000" ++ toString n
  else if n < 100 then "00" ++ toString n
  else if n < 1000 then "0" ++ toString n
  else toString n

/-- strftime("%I:%M %p"), zero-padded 12-hour clock with AM/PM. -/
def fmt12 (t : TimeHM) : String :=
  let h12 := if t.hour % 12 = 0 then 12 else t.hour % 12
  pad2 h12 ++ ":" ++ pad2 t.minute ++ (if t.hour < 12 then " AM" else " PM")

/-- strftime("%Y-%m-%d"). -/
def dateIso (ymd : Nat × Nat × Nat) : String :=
  pad4 ymd.1 ++ "-" ++ pad2 ymd.2.1 ++ "-" ++ pad2 ymd.2.2

/-! ### Retry with backoff plus circuit breaker (ventas/services/_resilience.py)

The TTLCache of failure counters is modelled, for one fixed key, by a `Nat`
that is the current counter (0 when the entry is absent or expired).  The
supplied coroutine factory becomes an attempt oracle `f : Nat → Except ε α`
giving the outcome of the i-th invocation; the backoff sleeps do not affect
the result and are dropped. -/

/-- FAILURE_THRESHOLD from _resilience.py. -/
def FAILURE_THRESHOLD : Nat := 3

inductive RCallResult (ε α : Type) where
  /-- RuntimeError raised immediately because the breaker is open. -/
  | circuitOpen
  /-- Value returned by a successful attempt. -/
  | ok (a : α)
  /-- All attempts raised; re-raise of last_exc (none only if max_retries = 0,
  where Python would raise TypeError from raise None). -/
  | failed (e : Option ε)
deriving DecidableEq

structure RCallOut (ε α : Type) where
  result : RCallResult ε α
  /-- failure counter for the key after the call -/
  failures : Nat
  /-- how many times the coroutine factory was invoked -/
  attemptsMade : Nat
deriving DecidableEq

/-- The attempt loop of resilient_call: try `fuel` more attempts starting at
index `idx`, remembering the last exception. -/
def rcAttempts (f : Nat → Except ε α) : Nat → Nat → Option ε → Except (Option ε) α × Nat
  | 0, idx, last => (.error last, idx)
  | fuel + 1, idx, _last =>
    match f idx with
    | .ok a => (.ok a, idx + 1)
    | .error e => rcAttempts f fuel (idx + 1) (some e)

/-- Embeds resilient_call from ventas/services/_resilience.py for one key:
fail fast if the counter reached FAILURE_THRESHOLD, otherwise run up to
max_retries attempts; a success pops the counter, exhaustion increments it
once and re-raises the last exception. -/
def resilient_call (failures : Nat) (f : Nat → Except ε α) (max_retries : Nat) :
    RCallOut ε α :=
  if FAILURE_THRESHOLD ≤ failures then ⟨.circuitOpen, failures, 0⟩
  else
    match rcAttempts f max_retries 0 none with
    | (.ok a, k) => ⟨.ok a, 0, k⟩
    | (.error last, k) => ⟨.failed last, failures + 1, k⟩

/-! ### Business-context fetcher (ventas/services/contexto_negocio.py) -/

/-- A decoded 2xx JSON body of OBTENER_CONTEXTO_NEGOCIO: the success flag and
the contexto_negocio field (none when absent or JSON null). -/
structure CtxResp where
  success : Bool
  contexto : Option String
deriving DecidableEq

/-- Per-key slice of the module state: the _contexto_cache entry and the
_contexto_failures counter (0 when absent or expired). -/
structure CtxSt where
  cache : Option String
  failures : Nat
deriving DecidableEq

/-- is_contexto_circuit_open embeds _is_contexto_circuit_open: the counter
reached _contexto_failure_threshold = 3. -/
def is_contexto_circuit_open (failures : Nat) : Bool :=
  FAILURE_THRESHOLD ≤ failures

/-- Body of one successful (non-raising) attempt inside _do_fetch_contexto:
a success:false body returns None leaving the state untouched; otherwise the
trimmed contexto is cached (even when empty), the failure counter is popped,
and the contexto is returned when nonempty. -/
def ctxAttempt (r : CtxResp) (st : CtxSt) : Option String × CtxSt :=
  if r.success = false then (none, st)
  else
    let c := pyStrip (r.contexto.getD "")
    (if c = "" then none else some c, ⟨some c, 0⟩)

/-- The retry loop of _do_fetch_contexto, tracking failed_by_exception. -/
def ctxLoop (f : Nat → Except ε CtxResp) (st : CtxSt) :
    Nat → Nat → Bool → Option String × CtxSt
  | 0, _, failedExc =>
    (none, ⟨st.cache, if failedExc then st.failures + 1 else st.failures⟩)
  | fuel + 1, idx, _failedExc =>
    match f idx with
    | .ok r => ctxAttempt r st
    | .error _ => ctxLoop f st fuel (idx + 1) true

/-- Embeds _do_fetch_contexto (max_retries = 2): the failure counter is
incremented only when every attempt raised. -/
def do_fetch_contexto (f : Nat → Except ε CtxResp) (st : CtxSt) :
    Option String × CtxSt :=
  ctxLoop f st 2 0 false

/-! ### Weekly schedule record and the deduplicating cache
(citas_ventas/services/horario_cache.py) -/

/-- One entry of the horarios_bloqueados list: either a JSON object with
fecha/inicio/fin fields (absent fields default to "", as the .get calls do),
or a free-text string. -/
inductive Bloqueo where
  | dictEntry (fecha inicio fin : String)
  | textEntry (s : String)
deriving DecidableEq

/-- The horarios_bloqueados string of the schedule record, represented by the
outcome of the json.loads / comma-split decoding that _is_time_blocked
performs: vacio is the falsy (empty) string, lista the decoded entries (a
JSON array of objects and strings, or the comma-separated fallback which
yields only textEntry items). -/
inductive Bloqueados where
  | vacio
  | lista (es : List Bloqueo)
deriving DecidableEq

/-- The horario_reuniones dict: one range-or-marker string per weekday (none
when the key is absent or null) plus the blocked-times field. -/
structure Schedule where
  reunion_lunes : Option String
  reunion_martes : Option String
  reunion_miercoles : Option String
  reunion_jueves : Option String
  reunion_viernes : Option String
  reunion_sabado : Option String
  reunion_domingo : Option String
  horarios_bloqueados : Bloqueados
deriving DecidableEq

/-- DAY_MAPPING followed by schedule.get(campo_dia). -/
def Schedule.dia (s : Schedule) : Nat → Option String
  | 0 => s.reunion_lunes
  | 1 => s.reunion_martes
  | 2 => s.reunion_miercoles
  | 3 => s.reunion_jueves
  | 4 => s.reunion_viernes
  | 5 => s.reunion_sabado
  | 6 => s.reunion_domingo
  | _ => none

/-- A decoded 2xx JSON body of OBTENER_HORARIO_REUNIONES; horario is none
when the horario_reuniones field is absent or falsy (so never cached). -/
structure HorarioResp where
  success : Bool
  horario : Option Schedule
deriving DecidableEq

/-- Per-tenant slice of the module state of horario_cache.py: the
_horario_cache entry (none when absent or TTL-expired) and the failure
counter of informacion_cb for this tenant. -/
structure CacheSt where
  cache : Option Schedule
  failures : Nat
deriving DecidableEq

/-- Modelled from the spec: citas_ventas/services/_resilience.py and
citas_ventas/services/circuit_breaker.py are not under src/ (only their
callers are).  Per spec §4.2/§4.3 the breaker is a per-key counter with
is_open ⇔ count ≥ 3, record_success clearing and record_failure incrementing
it, and resilient_call is the same shared retry/breaker logic as the ventas
copy in _resilience.py; the ventas embedding resilient_call is therefore
reused, and informacion_cb.is_open(key) is failures ≥ FAILURE_THRESHOLD. -/
def informacion_cb_is_open (failures : Nat) : Bool :=
  FAILURE_THRESHOLD ≤ failures

/-- Embeds get_horario from horario_cache.py, sequentially (one caller; the
lock acquisition and double-check collapse).  The concurrent behaviour is
modelled separately below.  f is the attempt oracle of the underlying POST. -/
def get_horario (f : Nat → Except Unit HorarioResp) (st : CacheSt)
    (id_empresa : Option String) : Option Schedule × CacheSt :=
  match id_empresa with
  | none => (none, st)
  | some uid =>
    if uid = "" then (none, st)
    else
      match st.cache with
      | some h => (some h, st)
      | none =>
        if informacion_cb_is_open st.failures then (none, st)
        else
          match resilient_call st.failures f 2 with
          | ⟨.ok data, f2, _⟩ =>
            if data.success then
              match data.horario with
              | some h => (some h, ⟨some h, f2⟩)
              | none => (none, ⟨st.cache, f2⟩)
            else (none, ⟨st.cache, f2⟩)
          | ⟨.failed _, f2, _⟩ => (none, ⟨st.cache, f2⟩)
          | ⟨.circuitOpen, f2, _⟩ => (none, ⟨st.cache, f2⟩)

/-! ### ScheduleValidator (citas_ventas/services/schedule_validator.py) -/

/-- Constructor parameters of ScheduleValidator that influence the verified
behaviour.  id_empresa is none/"" to model the falsy values get_horario
rejects; duracion_minutos is the appointment duration. -/
structure Validador where
  id_empresa : Option String
  duracion_minutos : Nat
deriving DecidableEq

/-- The verdict dict {"valid": …, "error": …}. -/
structure Verdict where
  valid : Bool
  error : Option String
deriving DecidableEq

/-- A decoded 2xx JSON body of CONSULTAR_DISPONIBILIDAD. -/
structure AvailResp where
  success : Bool
  disponible : Bool
deriving DecidableEq

/-- Result dict of _check_availability. -/
structure AvailOut where
  available : Bool
  error : Option String
deriving DecidableEq

/-- One suggestion object returned by SUGERIR_HORARIOS; fields carry the
defaults used by the .get calls (dia "", hora_legible "", disponible true,
fecha_inicio ""). -/
structure Sugerencia where
  dia : String
  hora_legible : String
  disponible : Bool
  fecha_inicio : String
deriving DecidableEq

/-- A decoded 2xx JSON body of SUGERIR_HORARIOS; mensaje already carries the
default "Horarios disponibles encontrados" when the field is absent, total
defaults to 0. -/
structure SugerirResp where
  success : Bool
  sugerencias : List Sugerencia
  mensaje : String
  total : Nat
deriving DecidableEq

/-- Environment of one validator call: the Lima clock reading that
datetime.now(_ZONA_PERU) returns (truncated to minutes), the timezone of the
evaluating machine (never consulted, because the source always passes the
fixed business timezone to datetime.now), and the outcomes of the three
upstream operations. -/
structure Env where
  ahora : DT
  hostTzMinutes : Int
  horarioFetch : Nat → Except Unit HorarioResp
  avail : Except Unit AvailResp
  sugerir : Except Unit SugerirResp

/-- Replace only the (unused) host timezone of an environment. -/
def setHostTz (e : Env) (z : Int) : Env :=
  ⟨e.ahora, z, e.horarioFetch, e.avail, e.sugerir⟩

/-- The sentinel list of step 7 of validate, compared against the stripped,
uppercased day string. -/
def sentinelsNoAtencion : List String :=
  ["NO DISPONIBLE", "CERRADO", "NO ATIENDE", "-", "N/A", ""]

/-- _DIAS_NOMBRE / the dias_semana list inside validate. -/
def diaNombre (w : Nat) : String :=
  (["lunes", "martes", "miércoles", "jueves", "viernes", "sábado", "domingo"]).getD w ""

def msgFechaInvalida : String :=
  "Formato de fecha inválido. Usa el formato YYYY-MM-DD (ejemplo: 2026-01-25)."

def msgHoraInvalida : String :=
  "Formato de hora inválido. Usa el formato HH:MM AM/PM (ejemplo: 10:30 AM)."

def msgYaPaso : String :=
  "La fecha y hora seleccionada ya pasó. Por favor elige una fecha y hora futura."

def msgSinHorarioDia (nombre : String) : String :=
  "No hay horario disponible para el día " ++ nombre ++ ". Por favor elige otro día."

def msgNoAtencion (nombre : String) : String :=
  "No hay atención el día " ++ nombre ++ ". Por favor elige otro día."

def msgAntes (nombre fmt : String) : String :=
  "La hora seleccionada es antes del horario de atención. El horario del " ++
    nombre ++ " es de " ++ fmt ++ "."

def msgDespues (nombre fmt : String) : String :=
  "La hora seleccionada es después del horario de atención. El horario del " ++
    nombre ++ " es de " ++ fmt ++ "."

/-- Step-10 message; duracion_cita.seconds // 60 is the duration modulo one
day because timedelta normalises whole days into the days field. -/
def msgExcede (durMin : Nat) (cierre : TimeHM) (nombre fmt : String) : String :=
  "La cita de " ++ toString (durMin % 1440) ++
    " minutos excedería el horario de atención (cierre: " ++ fmt12 cierre ++
    "). El horario del " ++ nombre ++ " es de " ++ fmt ++
    ". Por favor elige una hora más temprana."

def msgBloqueado : String :=
  "El horario seleccionado está bloqueado. Por favor elige otra hora."

def msgOcupado : String :=
  "El horario seleccionado ya está ocupado. Por favor elige otra hora o fecha."

/-- Embeds ScheduleValidator._is_time_blocked on the decoded blocked list:
a dict entry blocks when its fecha equals the ISO date and inicio ≤ hora < fin;
a text entry blocks when it contains the ISO date and the remaining text
parses as a range around hora.  Parse failures never block (the enclosing
try/except returns False). -/
def is_time_blocked (fecha : Nat × Nat × Nat) (hora : TimeHM) (hb : Bloqueados) : Bool :=
  match hb with
  | .vacio => false
  | .lista es =>
    let fstr := dateIso fecha
    es.any fun b =>
      match b with
      | .dictEntry f i fn =>
        f = fstr &&
          (match parse_time i, parse_time fn with
           | some ini, some fin2 => ini.key ≤ hora.key && hora.key < fin2.key
           | _, _ => false)
      | .textEntry s =>
        if pyContains s fstr then
          match parse_time_range (pyStrip (pyReplace s fstr "")) with
          | some (ini, fin2) => ini.key ≤ hora.key && hora.key < fin2.key
          | none => false
        else false

/-- Embeds ScheduleValidator._check_availability: a date or time that fails to
parse, any transport error, and a success:false body all degrade to
available; only a well-formed success body with disponible false reports the
slot as occupied. -/
def check_availability (env : Env) (fecha_str hora_str : String) : AvailOut :=
  match parse_date fecha_str with
  | none => ⟨true, none⟩
  | some _ =>
    match parse_time hora_str with
    | none => ⟨true, none⟩
    | some _ =>
      match env.avail with
      | .error _ => ⟨true, none⟩
      | .ok d =>
        if d.success = false then ⟨true, none⟩
        else if d.disponible then ⟨true, none⟩
        else ⟨false, some msgOcupado⟩

/-- Steps 5–12 of ScheduleValidator.validate (schedule fetch onwards),
split out so the date/time/past prefix can be discharged separately; the
behaviour of the composed pipeline is exactly the source's single method. -/
def validateResto (p : Validador) (env : Env) (st : CacheSt)
    (fecha_str hora_str : String) (y mo d : Nat) (hora : TimeHM) :
    Verdict × CacheSt :=
  let fechaHoraCita : DT := ⟨y, mo, d, hora.hour, hora.minute⟩
  match get_horario env.horarioFetch st p.id_empresa with
  | (none, st2) => (⟨true, none⟩, st2)
  | (some sched, st2) =>
          let w := pyWeekday y mo d
          let nombre := diaNombre w
          match sched.dia w with
          | none => (⟨false, some (msgSinHorarioDia nombre)⟩, st2)
          | some horarioDia =>
            if horarioDia = "" then (⟨false, some (msgSinHorarioDia nombre)⟩, st2)
            else if sentinelsNoAtencion.contains (pyUpper (pyStrip horarioDia)) then
              (⟨false, some (msgNoAtencion nombre)⟩, st2)
            else
              match parse_time_range horarioDia with
              | none => (⟨true, none⟩, st2)
              | some (inicio, fin2) =>
                let fmt := fmt12 inicio ++ " a " ++ fmt12 fin2
                if hora.key < inicio.key then
                  (⟨false, some (msgAntes nombre fmt)⟩, st2)
                else if fin2.key ≤ hora.key then
                  (⟨false, some (msgDespues nombre fmt)⟩, st2)
                else
                  let horaFinCita := fechaHoraCita.addMinutes p.duracion_minutos
                  let horaCierre : DT := ⟨y, mo, d, fin2.hour, fin2.minute⟩
                  if horaCierre.key < horaFinCita.key then
                    (⟨false, some (msgExcede p.duracion_minutos fin2 nombre fmt)⟩, st2)
                  else if is_time_blocked (y, mo, d) hora sched.horarios_bloqueados then
                    (⟨false, some msgBloqueado⟩, st2)
                  else
                    let av := check_availability env fecha_str hora_str
                    if av.available = false then (⟨false, av.error⟩, st2)
                    else (⟨true, none⟩, st2)

/-- Embeds ScheduleValidator.validate, threading the per-tenant cache and
breaker state through the schedule fetch.  The twelve steps of the source
appear in order (steps 5–12 in validateResto); every early return is one of
the branches. -/
def validate (p : Validador) (env : Env) (st : CacheSt)
    (fecha_str hora_str : String) : Verdict × CacheSt :=
  match parse_date fecha_str with
  | none => (⟨false, some msgFechaInvalida⟩, st)
  | some (y, mo, d) =>
    match parse_time hora_str with
    | none => (⟨false, some msgHoraInvalida⟩, st)
    | some hora =>
      let fechaHoraCita : DT := ⟨y, mo, d, hora.hour, hora.minute⟩
      if fechaHoraCita.key ≤ env.ahora.key then (⟨false, some msgYaPaso⟩, st)
      else validateResto p env st fecha_str hora_str y mo d hora

/-! ### RecommendationEngine (ScheduleValidator.recommendation) -/

/-- Result of recommendation: the returned dict (text plus the optional
recommendations/total/message keys of the suggestion branch), together with
the instrumentation flag recording whether the SUGERIR_HORARIOS upstream
operation was invoked. -/
structure RecOut where
  text : String
  recomendaciones : Option (List Sugerencia)
  total : Option Nat
  mensaje : Option String
  sugerirCalled : Bool
deriving DecidableEq

/-- Python truthiness of an optional string. -/
def truthy : Option String → Bool
  | none => false
  | some s => s ≠ ""

def msgIndicaHora : String :=
  "Para esa fecha indica una hora que prefieras y la verifico."

def msgFallback : String :=
  "No pude obtener sugerencias ahora. Indica una fecha y hora que prefieras y la verifico."

def msgNoDisponibleDefault : String := "Ese horario no está disponible."

/-- DIAS_ESPANOL.get(strftime("%A")) by weekday index: the English name from
%A is mapped straight back to Spanish. -/
def diaEspanol (w : Nat) : String :=
  (["Lunes", "Martes", "Miércoles", "Jueves", "Viernes", "Sábado", "Domingo"]).getD w ""

/-- strptime(s, "%Y-%m-%d %H:%M:%S") keeping only the date (the formatting
code uses just %A and %d/%m of the parsed value). -/
def parseFechaHoraFull (s : String) : Option (Nat × Nat × Nat) :=
  match pySplit s " " with
  | [dpart, tpart] =>
    match parse_date dpart with
    | none => none
    | some ymd =>
      match pySplit tpart ":" with
      | [hs, ms, ss] =>
        match parse2dig hs 0 23, parse2dig ms 0 59, parse2dig ss 0 61 with
        | some _, some _, some _ => some ymd
        | _, _, _ => none
      | _ => none
  | _ => none

/-- The per-suggestion formatting inside the SUGERIR_HORARIOS branch; none
when the suggestion is skipped because dia or hora_legible is falsy. -/
def sugTexto (s : Sugerencia) : Option String :=
  if s.dia ≠ "" ∧ s.hora_legible ≠ "" then
    let base :=
      if s.dia = "hoy" then "Hoy a las " ++ s.hora_legible
      else if s.dia = "mañana" then "Mañana a las " ++ s.hora_legible
      else if s.fecha_inicio ≠ "" then
        match parseFechaHoraFull s.fecha_inicio with
        | some (y, mo, d) =>
          diaEspanol (pyWeekday y mo d) ++ " " ++ pad2 d ++ "/" ++ pad2 mo ++
            " a las " ++ s.hora_legible
        | none => s.dia ++ " a las " ++ s.hora_legible
      else s.dia ++ " a las " ++ s.hora_legible
    some (if s.disponible then base else base ++ " (ocupado)")
  else none

/-- Numbered list built by enumerate(sugerencias, 1). -/
def buildTextos (l : List Sugerencia) : List String :=
  (l.enumFrom 1).filterMap fun p => (sugTexto p.2).map (fun t => toString p.1 ++ ". " ++ t)

/-- Interleave the line separator of "\n".join. -/
def joinLines (l : List String) : String := String.intercalate "\n" l

/-- The fallback dict of recommendation (step 2 of the source). -/
def recFallback (called : Bool) : RecOut := ⟨msgFallback, none, none, none, called⟩

/-- Embeds ScheduleValidator.recommendation.  Branch 1 (concrete date and
time): exact-slot availability decides between the confirmation prompt and
the rejection-plus-offer; _check_availability cannot raise, so the except
fallthrough of the source is dead.  Branch 2 (date that is neither today nor
tomorrow in the business timezone): ask for a time without calling
SUGERIR_HORARIOS.  Branch 3: call SUGERIR_HORARIOS and format, falling back
to the generic prompt. -/
def recommendation (env : Env) (fecha? hora? : Option String) : RecOut :=
  let hoy := (env.ahora.year, env.ahora.month, env.ahora.day)
  let manana := nextDay hoy
  if truthy fecha? ∧ truthy hora? ∧ pyStrip (hora?.getD "") ≠ "" then
    let f := fecha?.getD ""
    let h := hora?.getD ""
    let av := check_availability env (pyStrip f) (pyStrip h)
    if av.available then
      ⟨"El " ++ f ++ " a las " ++ pyStrip h ++ " está disponible. ¿Confirmamos la cita?",
        none, none, none, false⟩
    else
      ⟨av.error.getD msgNoDisponibleDefault ++ " ¿Te gustaría que te sugiera otros horarios?",
        none, none, none, false⟩
  else
    let distinta : Bool :=
      if truthy fecha? then
        match parse_date (pyStrip (fecha?.getD "")) with
        | some ymd => decide (ymd ≠ hoy ∧ ymd ≠ manana)
        | none => false
      else false
    if distinta then ⟨msgIndicaHora, none, none, none, false⟩
    else
      match env.sugerir with
      | .error _ => recFallback true
      | .ok data =>
        if data.success then
          if data.sugerencias ≠ [] ∧ 0 < data.total then
            let textos := buildTextos data.sugerencias
            if textos ≠ [] then
              let textoFinal :=
                if data.mensaje ≠ "" then data.mensaje ++ "\n\n" ++ joinLines textos
                else "Horarios sugeridos:\n\n" ++ joinLines textos
              ⟨textoFinal, some data.sugerencias, some data.total, some data.mensaje, true⟩
            else recFallback true
          else recFallback true
        else recFallback true

/-! ### Concrete fixtures used by witnesses and counterexamples -/

/-- A schedule whose Tuesday field is the given string, every other day
absent and no blocked times. -/
def fixSched (martes : Option String) : Schedule :=
  ⟨none, martes, none, none, none, none, none, .vacio⟩

/-- An environment with the given clock, availability outcome and schedule
fetch oracle (host timezone 0, suggestion endpoint failing). -/
def fixEnv (ahora : DT) (av : Except Unit AvailResp)
    (fetch : Nat → Except Unit HorarioResp) : Env :=
  ⟨ahora, 0, fetch, av, .error ()⟩

/-- A validator for tenant "7" with 60-minute appointments. -/
def fixP : Validador := ⟨some "7", 60⟩

/-- A schedule fetch whose attempts all raise (timeout / transport error). -/
def fetchFail : Nat → Except Unit HorarioResp := fun _ => .error ()

/-! ### Concurrent model of get_horario (thundering-herd behaviour)

M coroutines run get_horario for the same tenant under asyncio's cooperative
scheduling: code between awaits is atomic, and the awaits of one call are the
lock acquisition and the completion of the resilient_call.  Each coroutine is
therefore a four-state machine:

* start    — has not run yet; its first slice does the cache check, the
             breaker fast-reject and, on a miss, joins the lock queue;
* waitLock — parked on the per-tenant asyncio.Lock; when the lock is free its
             next slice acquires it, re-checks the cache (and, inside
             resilient_call, the breaker) and either returns or starts the
             fetch;
* fetching — owns the lock while its resilient_call runs upstream attempts;
* done r   — returned r to its caller.

The upstream outcome is the same for every resilient_call of the run:
ok (some v) is a success body with a cacheable horario, ok none a success
body without one, error () an exhausted retry loop (e.g. timeouts).
fetches counts the resilient_call invocations that reach the network. -/

namespace Herd

inductive CoSt (V : Type) where
  | start
  | waitLock
  | fetching
  | done (r : Option V)
deriving DecidableEq

structure Config (M : Nat) (V : Type) where
  co : Fin M → CoSt V
  cache : Option V
  holder : Option (Fin M)
  fetches : Nat
  failures : Nat

/-- All coroutines ready, cold cache, lock free, breaker closed. -/
def init (M : Nat) (V : Type) : Config M V :=
  ⟨fun _ => .start, none, none, 0, 0⟩

def setCo (c : Config M V) (i : Fin M) (s : CoSt V) : Config M V :=
  ⟨Function.update c.co i s, c.cache, c.holder, c.fetches, c.failures⟩

/-- Give coroutine i its next scheduling slice (identity when i cannot run:
already done, or parked while the lock is held). -/
def stepOf (fo : Except Unit (Option V)) (c : Config M V) (i : Fin M) : Config M V :=
  match c.co i with
  | .start =>
    match c.cache with
    | some v => setCo c i (.done (some v))
    | none =>
      if FAILURE_THRESHOLD ≤ c.failures then setCo c i (.done none)
      else setCo c i .waitLock
  | .waitLock =>
    match c.holder with
    | some _ => c
    | none =>
      match c.cache with
      | some v => setCo c i (.done (some v))
      | none =>
        if FAILURE_THRESHOLD ≤ c.failures then setCo c i (.done none)
        else
          ⟨Function.update c.co i .fetching, c.cache, some i, c.fetches + 1, c.failures⟩
  | .fetching =>
    match fo with
    | .ok (some v) => ⟨Function.update c.co i (.done (some v)), some v, none, c.fetches, 0⟩
    | .ok none => ⟨Function.update c.co i (.done none), c.cache, none, c.fetches, 0⟩
    | .error _ => ⟨Function.update c.co i (.done none), c.cache, none, c.fetches, c.failures + 1⟩
  | .done _ => c

/-- Run a schedule (list of scheduling choices). -/
def run (fo : Except Unit (Option V)) (sched : List (Fin M)) (c : Config M V) : Config M V :=
  sched.foldl (stepOf fo) c

def isDone : CoSt V → Bool
  | .done _ => true
  | _ => false

/-- Count an occupied option slot. -/
def obit : Option α → Nat
  | none => 0
  | some _ => 1

/-- Invariant of every reachable configuration when the upstream outcome is
a cacheable success ok (some v). -/
structure Inv (v : V) (c : Config M V) : Prop where
  cacheVal : c.cache = none ∨ c.cache = some v
  failZero : c.failures = 0
  holderFetch : ∀ i, c.holder = some i ↔ c.co i = .fetching
  holderCache : c.holder ≠ none → c.cache = none
  count : c.fetches = obit c.cache + obit c.holder
  doneCache : ∀ i r, c.co i = .done r → c.cache = some v
  doneVal : ∀ i r, c.co i = .done r → r = some v

end Herd

/-! ## Helper lemmas -/

namespace Herd

/-! Reduction equations for stepOf, one per transition. -/

theorem stepOf_start_hit {c : Config M V} {i : Fin M} (fo : Except Unit (Option V)) {w : V}
    (h1 : c.co i = .start) (h2 : c.cache = some w) :
    stepOf fo c i = setCo c i (.done (some w)) := by
  simp [stepOf, h1, h2]

theorem stepOf_start_miss {c : Config M V} {i : Fin M} (fo : Except Unit (Option V))
    (h1 : c.co i = .start) (h2 : c.cache = none) (h3 : c.failures < FAILURE_THRESHOLD) :
    stepOf fo c i = setCo c i .waitLock := by
  simp [stepOf, h1, h2, Nat.not_le.mpr h3]

theorem stepOf_start_open {c : Config M V} {i : Fin M} (fo : Except Unit (Option V))
    (h1 : c.co i = .start) (h2 : c.cache = none) (h3 : FAILURE_THRESHOLD ≤ c.failures) :
    stepOf fo c i = setCo c i (.done none) := by
  simp [stepOf, h1, h2, h3]

theorem stepOf_wait_held {c : Config M V} {i j : Fin M} (fo : Except Unit (Option V))
    (h1 : c.co i = .waitLock) (h2 : c.holder = some j) :
    stepOf fo c i = c := by
  simp [stepOf, h1, h2]

theorem stepOf_wait_hit {c : Config M V} {i : Fin M} (fo : Except Unit (Option V)) {w : V}
    (h1 : c.co i = .waitLock) (h2 : c.holder = none) (h3 : c.cache = some w) :
    stepOf fo c i = setCo c i (.done (some w)) := by
  simp [stepOf, h1, h2, h3]

theorem stepOf_wait_open {c : Config M V} {i : Fin M} (fo : Except Unit (Option V))
    (h1 : c.co i = .waitLock) (h2 : c.holder = none) (h3 : c.cache = none)
    (h4 : FAILURE_THRESHOLD ≤ c.failures) :
    stepOf fo c i = setCo c i (.done none) := by
  simp [stepOf, h1, h2, h3, h4]

theorem stepOf_wait_fetch {c : Config M V} {i : Fin M} (fo : Except Unit (Option V))
    (h1 : c.co i = .waitLock) (h2 : c.holder = none) (h3 : c.cache = none)
    (h4 : c.failures < FAILURE_THRESHOLD) :
    stepOf fo c i =
      ⟨Function.update c.co i .fetching, c.cache, some i, c.fetches + 1, c.failures⟩ := by
  simp [stepOf, h1, h2, h3, Nat.not_le.mpr h4]

theorem stepOf_fetch_cacheable {c : Config M V} {i : Fin M} {w : V}
    (h1 : c.co i = .fetching) :
    stepOf (Except.ok (some w)) c i =
      ⟨Function.update c.co i (.done (some w)), some w, none, c.fetches, 0⟩ := by
  simp [stepOf, h1]

theorem stepOf_done {c : Config M V} {i : Fin M} (fo : Except Unit (Option V)) {r : Option V}
    (h1 : c.co i = .done r) : stepOf fo c i = c := by
  simp [stepOf, h1]

theorem inv_init (M : Nat) (V : Type) (v : V) : Inv v (init M V) := by
  refine ⟨Or.inl rfl, rfl, ?_, ?_, rfl, ?_, ?_⟩ <;> simp [init]

theorem inv_step {M : Nat} {V : Type} {v : V} {c : Config M V}
    (h : Inv v c) (i : Fin M) : Inv v (stepOf (Except.ok (some v)) c i) := by
  obtain ⟨hcv, hf0, hhf, hhc, hcnt, hdc, hdv⟩ := h
  have hnotopen : c.failures < FAILURE_THRESHOLD := by
    rw [hf0]; decide
  cases hco : c.co i with
  | start =>
    cases hca : c.cache with
    | some w =>
      have hwv : w = v := by
        rcases hcv with h1 | h1
        · rw [hca] at h1; cases h1
        · rw [hca] at h1; exact (Option.some.injEq _ _).mp h1
      rw [hwv] at hca
      rw [stepOf_start_hit _ hco hca]
      refine ⟨Or.inr hca, hf0, ?_, hhc, hcnt, ?_, ?_⟩
      · intro k
        simp only [setCo, Function.update_apply]
        rcases eq_or_ne k i with rfl | hne
        · simp only [if_pos rfl]
          constructor
          · intro hk
            exact absurd (hco ▸ (hhf k).mp hk) (by intro hx; cases hx)
          · intro hk
            cases hk
        · rw [if_neg hne]
          exact hhf k
      · intro k r hk
        exact hca
      · intro k r hk
        simp only [setCo, Function.update_apply] at hk
        rcases eq_or_ne k i with rfl | hne
        · rw [if_pos rfl] at hk
          exact ((CoSt.done.injEq _ _).mp hk).symm
        · rw [if_neg hne] at hk
          exact hdv k r hk
    | none =>
      rw [stepOf_start_miss _ hco hca hnotopen]
      refine ⟨hcv, hf0, ?_, hhc, hcnt, ?_, ?_⟩
      · intro k
        simp only [setCo, Function.update_apply]
        rcases eq_or_ne k i with rfl | hne
        · rw [if_pos rfl]
          constructor
          · intro hk
            exact absurd (hco ▸ (hhf k).mp hk) (by intro hx; cases hx)
          · intro hk
            cases hk
        · rw [if_neg hne]
          exact hhf k
      · intro k r hk
        simp only [setCo, Function.update_apply] at hk
        rcases eq_or_ne k i with rfl | hne
        · rw [if_pos rfl] at hk
          cases hk
        · rw [if_neg hne] at hk
          exact hdc k r hk
      · intro k r hk
        simp only [setCo, Function.update_apply] at hk
        rcases eq_or_ne k i with rfl | hne
        · rw [if_pos rfl] at hk
          cases hk
        · rw [if_neg hne] at hk
          exact hdv k r hk
  | waitLock =>
    cases hho : c.holder with
    | some j =>
      rw [stepOf_wait_held _ hco hho]
      exact ⟨hcv, hf0, hhf, hhc, hcnt, hdc, hdv⟩
    | none =>
      cases hca : c.cache with
      | some w =>
        have hwv : w = v := by
          rcases hcv with h1 | h1
          · rw [hca] at h1; cases h1
          · rw [hca] at h1; exact (Option.some.injEq _ _).mp h1
        rw [hwv] at hca
        rw [stepOf_wait_hit _ hco hho hca]
        refine ⟨Or.inr hca, hf0, ?_, hhc, hcnt, ?_, ?_⟩
        · intro k
          simp only [setCo, Function.update_apply]
          rcases eq_or_ne k i with rfl | hne
          · rw [if_pos rfl]
            constructor
            · intro hk
              rw [hho] at hk
              cases hk
            · intro hk
              cases hk
          · rw [if_neg hne]
            exact hhf k
        · intro k r hk
          exact hca
        · intro k r hk
          simp only [setCo, Function.update_apply] at hk
          rcases eq_or_ne k i with rfl | hne
          · rw [if_pos rfl] at hk
            exact ((CoSt.done.injEq _ _).mp hk).symm
          · rw [if_neg hne] at hk
            exact hdv k r hk
      | none =>
        rw [stepOf_wait_fetch _ hco hho hca hnotopen]
        refine ⟨by rw [hca]; exact Or.inl rfl, hf0, ?_, ?_, ?_, ?_, ?_⟩
        · intro k
          simp only [Function.update_apply]
          rcases eq_or_ne k i with rfl | hne
          · simp
          · rw [if_neg hne]
            constructor
            · intro hk
              exact absurd ((Option.some.injEq _ _).mp hk).symm hne
            · intro hk
              have := (hhf k).mpr hk
              rw [hho] at this
              cases this
        · intro _
          exact hca
        · simp only [obit]
          rw [hcnt, hca, hho]
          rfl
        · intro k r hk
          simp only [Function.update_apply] at hk
          rcases eq_or_ne k i with rfl | hne
          · rw [if_pos rfl] at hk
            cases hk
          · rw [if_neg hne] at hk
            have := hdc k r hk
            rw [hca] at this
            cases this
        · intro k r hk
          simp only [Function.update_apply] at hk
          rcases eq_or_ne k i with rfl | hne
          · rw [if_pos rfl] at hk
            cases hk
          · rw [if_neg hne] at hk
            exact hdv k r hk
  | fetching =>
    have hhi : c.holder = some i := (hhf i).mpr hco
    have hcn : c.cache = none := hhc (by rw [hhi]; intro hx; cases hx)
    rw [stepOf_fetch_cacheable hco]
    refine ⟨Or.inr rfl, rfl, ?_, ?_, ?_, ?_, ?_⟩
    · intro k
      constructor
      · intro hk
        cases hk
      · intro hk
        simp only [Function.update_apply] at hk
        rcases eq_or_ne k i with rfl | hne
        · rw [if_pos rfl] at hk
          cases hk
        · rw [if_neg hne] at hk
          have := (hhf k).mpr hk
          rw [hhi] at this
          exact absurd ((Option.some.injEq _ _).mp this) (Ne.symm hne)
    · intro hk
      exact absurd rfl hk
    · rw [hcnt, hcn, hhi]
      rfl
    · intro k r hk
      rfl
    · intro k r hk
      simp only [Function.update_apply] at hk
      rcases eq_or_ne k i with rfl | hne
      · rw [if_pos rfl] at hk
        exact ((CoSt.done.injEq _ _).mp hk).symm
      · rw [if_neg hne] at hk
        exact hdv k r hk
  | done r =>
    rw [stepOf_done _ hco]
    exact ⟨hcv, hf0, hhf, hhc, hcnt, hdc, hdv⟩

theorem run_cons (fo : Except Unit (Option V)) (a : Fin M) (l : List (Fin M))
    (c : Config M V) : run fo (a :: l) c = run fo l (stepOf fo c a) := rfl

theorem inv_run {M : Nat} {V : Type} {v : V} (sched : List (Fin M)) {c : Config M V}
    (h : Inv v c) : Inv v (run (Except.ok (some v)) sched c) := by
  induction sched generalizing c with
  | nil => exact h
  | cons a l ih =>
    rw [run_cons]
    exact ih (inv_step h a)

end Herd

/-! ## Claim theorems -/

/-! ### C2: open circuit fails fast with zero attempts -/

/-- C2: for every key whose failure counter has reached the threshold of 3
(the TTL entry still live), resilient_call raises the distinguished
circuit-open error immediately and never invokes the supplied fetch
function — zero attempts are made and the counter is left as is, so this
repeats until a success or cooldown expiry resets the counter; and
_is_contexto_circuit_open reports the circuit as open. -/
theorem resilient_call_circuit_open {ε α : Type} (failures : Nat)
    (h : FAILURE_THRESHOLD ≤ failures) :
    is_contexto_circuit_open failures = true ∧
    ∀ (f : Nat → Except ε α) (mr : Nat),
      resilient_call failures f mr = ⟨.circuitOpen, failures, 0⟩ := by
  constructor
  · simp [is_contexto_circuit_open, h]
  · intro f mr
    simp [resilient_call, h]

/-- Witness for C2 at counter value 3. -/
theorem resilient_call_circuit_open_witness :
    is_contexto_circuit_open 3 = true ∧
    ∀ (f : Nat → Except Unit Nat) (mr : Nat),
      resilient_call 3 f mr = ⟨.circuitOpen, 3, 0⟩ :=
  resilient_call_circuit_open 3 (by decide)

/-! ### C3: closed-circuit behaviour of resilient_call -/

theorem rcAttempts_ok {ε α : Type} (f : Nat → Except ε α) :
    ∀ (fuel idx : Nat) (last : Option ε) (j : Nat) (a : α),
      j < fuel → f (idx + j) = .ok a → (∀ i, i < j → ∃ e, f (idx + i) = .error e) →
      rcAttempts f fuel idx last = (.ok a, idx + j + 1) := by
  intro fuel
  induction fuel with
  | zero =>
    intro idx last j a hj
    exact absurd hj (Nat.not_lt_zero j)
  | succ n ih =>
    intro idx last j a hj hok herr
    cases j with
    | zero =>
      rw [Nat.add_zero] at hok
      simp [rcAttempts, hok]
    | succ j2 =>
      obtain ⟨e, he⟩ := herr 0 (Nat.succ_pos j2)
      rw [Nat.add_zero] at he
      have step : rcAttempts f (n + 1) idx last = rcAttempts f n (idx + 1) (some e) := by
        simp [rcAttempts, he]
      rw [step]
      have hok2 : f (idx + 1 + j2) = .ok a := by
        rw [show idx + 1 + j2 = idx + (j2 + 1) by omega]
        exact hok
      have herr2 : ∀ i, i < j2 → ∃ e2, f (idx + 1 + i) = .error e2 := by
        intro i hi
        obtain ⟨e2, he2⟩ := herr (i + 1) (by omega)
        exact ⟨e2, by rw [show idx + 1 + i = idx + (i + 1) by omega]; exact he2⟩
      rw [ih (idx + 1) (some e) j2 a (by omega) hok2 herr2]
      congr 1
      omega

theorem rcAttempts_allerr {ε α : Type} (f : Nat → Except ε α) (g : Nat → ε) :
    ∀ (fuel idx : Nat) (last : Option ε),
      1 ≤ fuel → (∀ i, i < fuel → f (idx + i) = .error (g (idx + i))) →
      rcAttempts f fuel idx last = (.error (some (g (idx + fuel - 1))), idx + fuel) := by
  intro fuel
  induction fuel with
  | zero =>
    intro idx last h1
    exact absurd h1 (by omega)
  | succ n ih =>
    intro idx last _ herr
    have he0 : f idx = .error (g idx) := by
      have := herr 0 (Nat.succ_pos n)
      rwa [Nat.add_zero] at this
    have step : rcAttempts f (n + 1) idx last = rcAttempts f n (idx + 1) (some (g idx)) := by
      simp [rcAttempts, he0]
    rw [step]
    cases n with
    | zero =>
      simp [rcAttempts]
    | succ n2 =>
      have herr2 : ∀ i, i < n2 + 1 → f (idx + 1 + i) = .error (g (idx + 1 + i)) := by
        intro i hi
        have := herr (i + 1) (by omega)
        rwa [show idx + (i + 1) = idx + 1 + i by omega] at this
      rw [ih (idx + 1) (some (g idx)) (by omega) herr2]
      have e1 : idx + 1 + (n2 + 1) - 1 = idx + (n2 + 1 + 1) - 1 := by omega
      have e2 : idx + 1 + (n2 + 1) = idx + (n2 + 1 + 1) := by omega
      rw [e1, e2]

/-- C3: with the circuit closed, if some attempt of the fetch function
returns without raising (all earlier ones raising), the failure counter is
cleared and that result is returned after exactly that many invocations; if
all max_retries attempts raise, the counter is incremented by exactly one and
the last exception is re-raised. -/
theorem resilient_call_closed {ε α : Type} (failures mr : Nat)
    (f : Nat → Except ε α) (h : failures < FAILURE_THRESHOLD) :
    (∀ (j : Nat) (a : α), j < mr → f j = .ok a →
       (∀ i, i < j → ∃ e, f i = .error e) →
       resilient_call failures f mr = ⟨.ok a, 0, j + 1⟩) ∧
    (∀ g : Nat → ε, 1 ≤ mr → (∀ i, i < mr → f i = .error (g i)) →
       resilient_call failures f mr = ⟨.failed (some (g (mr - 1))), failures + 1, mr⟩) := by
  have hno : ¬ FAILURE_THRESHOLD ≤ failures := Nat.not_le.mpr h
  constructor
  · intro j a hj hok herr
    have := rcAttempts_ok f mr 0 none j a hj (by rwa [Nat.zero_add]) (by
      intro i hi
      obtain ⟨e, he⟩ := herr i hi
      exact ⟨e, by rwa [Nat.zero_add]⟩)
    simp [resilient_call, hno, this]
  · intro g hmr herr
    have := rcAttempts_allerr f g mr 0 none hmr (by
      intro i hi
      rw [Nat.zero_add]
      exact herr i hi)
    rw [Nat.zero_add] at this
    simp [resilient_call, hno, this]

/-- Witness for C3: counter 1, two attempts; first a success on attempt 2
after a raise on attempt 1, then the all-raise case. -/
theorem resilient_call_closed_witness :
    (resilient_call 1 (fun i => if i = 0 then .error 7 else .ok 42) 2
       = ⟨.ok 42, 0, 2⟩) ∧
    (resilient_call 1 (fun _ => (.error 9 : Except Nat Nat)) 2
       = ⟨.failed (some 9), 2, 2⟩) := by
  constructor
  · exact (resilient_call_closed 1 2 _ (by decide)).1 1 42 (by decide) rfl
      (by
        intro i hi
        have hz : i = 0 := by omega
        subst hz
        exact ⟨7, rfl⟩)
  · exact (resilient_call_closed 1 2 _ (by decide)).2 (fun _ => 9) (by decide)
      (fun i _ => rfl)

/-! ### C4: business-level failures never feed the breaker -/

/-- C4: a well-formed response with success:false makes _do_fetch_contexto
return None with the per-key state (cache and failure counter) untouched,
whether it arrives on the first attempt or after a raised first attempt; and
the failure counter is incremented only when both attempts raised, i.e. only
transport-level failures count toward opening the circuit. -/
theorem contexto_business_failure_not_counted {ε : Type} :
    (∀ (f : Nat → Except ε CtxResp) (st : CtxSt) (r : CtxResp),
       f 0 = .ok r → r.success = false → do_fetch_contexto f st = (none, st)) ∧
    (∀ (f : Nat → Except ε CtxResp) (st : CtxSt) (e : ε) (r : CtxResp),
       f 0 = .error e → f 1 = .ok r → r.success = false →
       do_fetch_contexto f st = (none, st)) ∧
    (∀ (f : Nat → Except ε CtxResp) (st : CtxSt),
       (do_fetch_contexto f st).2.failures = st.failures + 1 →
       (∃ e, f 0 = .error e) ∧ (∃ e, f 1 = .error e)) := by
  refine ⟨?_, ?_, ?_⟩
  · intro f st r h0 hs
    simp [do_fetch_contexto, ctxLoop, h0, ctxAttempt, hs]
  · intro f st e r h0 h1 hs
    simp [do_fetch_contexto, ctxLoop, h0, h1, ctxAttempt, hs]
  · intro f st hinc
    cases h0 : f 0 with
    | ok r =>
      rw [show do_fetch_contexto f st = ctxAttempt r st by
        simp [do_fetch_contexto, ctxLoop, h0]] at hinc
      by_cases hs : r.success = false
      · rw [show ctxAttempt r st = (none, st) by simp [ctxAttempt, hs]] at hinc
        simp at hinc
      · have hz : (ctxAttempt r st).2.failures = 0 := by
          simp [ctxAttempt, hs]
        rw [hz] at hinc
        omega
    | error e =>
      cases h1 : f 1 with
      | ok r =>
        rw [show do_fetch_contexto f st = ctxAttempt r st by
          simp [do_fetch_contexto, ctxLoop, h0, h1]] at hinc
        by_cases hs : r.success = false
        · rw [show ctxAttempt r st = (none, st) by simp [ctxAttempt, hs]] at hinc
          simp at hinc
        · have hz : (ctxAttempt r st).2.failures = 0 := by
            simp [ctxAttempt, hs]
          rw [hz] at hinc
          omega
      | error e2 =>
        exact ⟨⟨e, rfl⟩, ⟨e2, rfl⟩⟩

/-- Witness for C4: a success:false body on the first attempt leaves the
state (counter 2) untouched. -/
theorem contexto_business_failure_not_counted_witness :
    do_fetch_contexto (fun _ => (.ok ⟨false, some "x"⟩ : Except Unit CtxResp))
        ⟨none, 2⟩ = (none, ⟨none, 2⟩) :=
  (@contexto_business_failure_not_counted Unit).1 _ ⟨none, 2⟩ ⟨false, some "x"⟩
    rfl rfl

/-! ### C1: thundering-herd deduplication -/

/-- C1 (amended): for the lock-based schedule cache, when the single upstream
fetch succeeds with a cacheable result, M ≥ 1 concurrent requests against a
cold cache for the same key produce exactly one upstream fetch under every
cooperative schedule that runs all callers to completion, and every caller
observes that fetch's result.  (When the fetch fails the source does not
cache, and the waiters serially issue their own fetches; see the
counterexample.) -/
theorem herd_single_fetch_on_success {M : Nat} {V : Type} (v : V) (hM : 0 < M)
    (sched : List (Fin M))
    (hdone : ∀ i, Herd.isDone
      ((Herd.run (Except.ok (some v)) sched (Herd.init M V)).co i) = true) :
    (Herd.run (Except.ok (some v)) sched (Herd.init M V)).fetches = 1 ∧
    ∀ i, (Herd.run (Except.ok (some v)) sched (Herd.init M V)).co i
      = Herd.CoSt.done (some v) := by
  have hInv : Herd.Inv v (Herd.run (Except.ok (some v)) sched (Herd.init M V)) :=
    Herd.inv_run sched (Herd.inv_init M V v)
  have hall : ∀ i, (Herd.run (Except.ok (some v)) sched (Herd.init M V)).co i
      = Herd.CoSt.done (some v) := by
    intro i
    have hd := hdone i
    cases hco : (Herd.run (Except.ok (some v)) sched (Herd.init M V)).co i with
    | start => rw [hco] at hd; cases hd
    | waitLock => rw [hco] at hd; cases hd
    | fetching => rw [hco] at hd; cases hd
    | done r =>
      rw [hInv.doneVal i r hco]
  refine ⟨?_, hall⟩
  have hholder : (Herd.run (Except.ok (some v)) sched (Herd.init M V)).holder = none := by
    cases hh : (Herd.run (Except.ok (some v)) sched (Herd.init M V)).holder with
    | none => rfl
    | some j =>
      have hj := (hInv.holderFetch j).mp hh
      rw [hall j] at hj
      cases hj
  have hcache : (Herd.run (Except.ok (some v)) sched (Herd.init M V)).cache = some v :=
    hInv.doneCache ⟨0, hM⟩ (some v) (hall ⟨0, hM⟩)
  rw [hInv.count, hcache, hholder]
  rfl

/-- Witness for C1 (amended): three callers, a schedule that interleaves them
and completes, exactly one fetch with everyone observing the cached value. -/
theorem herd_single_fetch_on_success_witness :
    (0 < 3 ∧ ∀ i : Fin 3, Herd.isDone
      ((Herd.run (Except.ok (some ())) [0, 1, 2, 0, 0, 1, 2]
        (Herd.init 3 Unit)).co i) = true) ∧
    ((Herd.run (Except.ok (some ())) [0, 1, 2, 0, 0, 1, 2]
        (Herd.init 3 Unit)).fetches = 1 ∧
     ∀ i : Fin 3, (Herd.run (Except.ok (some ())) [0, 1, 2, 0, 0, 1, 2]
        (Herd.init 3 Unit)).co i = Herd.CoSt.done (some ())) :=
  ⟨⟨by decide, by decide⟩,
    herd_single_fetch_on_success () (by decide) [0, 1, 2, 0, 0, 1, 2] (by decide)⟩

/-- C1 counterexample: two concurrent requests against a cold cache whose
single fetch fails (all retries raise).  The schedule runs caller 0 to
completion and then caller 1; the execution completes with both callers done
at None, yet two upstream fetches were issued — the claim's "exactly one
upstream fetch … the other callers reuse its result" fails on the code when
the fetch does not succeed, because nothing is cached and the next lock
holder fetches again. -/
theorem herd_failure_two_fetches :
    (Herd.run (Except.error ()) ([0, 0, 0, 1, 1, 1] : List (Fin 2))
        (Herd.init 2 Unit)).fetches = 2 ∧
    ∀ i : Fin 2,
      (Herd.run (Except.error ()) ([0, 0, 0, 1, 1, 1] : List (Fin 2))
          (Herd.init 2 Unit)).co i = Herd.CoSt.done none := by
  decide

/-! ### Helper lemmas about get_horario and the validate prefix -/

theorem get_horario_cache_hit (f : Nat → Except Unit HorarioResp) (st : CacheSt)
    (uid : String) (sched : Schedule) (huid : uid ≠ "") (hc : st.cache = some sched) :
    get_horario f st (some uid) = (some sched, st) := by
  simp [get_horario, huid, hc]

theorem get_horario_circuit_open (f : Nat → Except Unit HorarioResp) (st : CacheSt)
    (uid : String) (huid : uid ≠ "") (hc : st.cache = none)
    (hop : FAILURE_THRESHOLD ≤ st.failures) :
    get_horario f st (some uid) = (none, st) := by
  simp [get_horario, huid, hc, informacion_cb_is_open, hop]

theorem get_horario_fetch_fails (f : Nat → Except Unit HorarioResp) (st : CacheSt)
    (uid : String) (huid : uid ≠ "") (hc : st.cache = none)
    (hcl : st.failures < FAILURE_THRESHOLD) (hf : ∀ i, f i = .error ()) :
    get_horario f st (some uid) = (none, ⟨none, st.failures + 1⟩) := by
  have hrc : resilient_call st.failures f 2 = ⟨.failed (some ()), st.failures + 1, 2⟩ := by
    have hall := rcAttempts_allerr f (fun _ => ()) 2 0 none (by decide)
      (fun i _ => hf (0 + i))
    rw [Nat.zero_add] at hall
    simp [resilient_call, Nat.not_le.mpr hcl, hall]
  simp [get_horario, huid, hc, informacion_cb_is_open, Nat.not_le.mpr hcl, hrc]

theorem validate_past (p : Validador) (env : Env) (st : CacheSt)
    (fecha hora : String) (y mo d : Nat) (t : TimeHM)
    (hd : parse_date fecha = some (y, mo, d)) (ht : parse_time hora = some t)
    (hp : (DT.mk y mo d t.hour t.minute).key ≤ env.ahora.key) :
    validate p env st fecha hora = (⟨false, some msgYaPaso⟩, st) := by
  simp only [validate, hd, ht]
  rw [if_pos hp]

theorem validate_future (p : Validador) (env : Env) (st : CacheSt)
    (fecha hora : String) (y mo d : Nat) (t : TimeHM)
    (hd : parse_date fecha = some (y, mo, d)) (ht : parse_time hora = some t)
    (hf : env.ahora.key < (DT.mk y mo d t.hour t.minute).key) :
    validate p env st fecha hora = validateResto p env st fecha hora y mo d t := by
  simp only [validate, hd, ht]
  rw [if_neg (Nat.not_le.mpr hf)]

/-! ### C6: past date-times rejected in the business timezone -/

/-- C6: for every well-formed (date, time) input whose combined date-time is
less than or equal to the current instant in the business's fixed timezone,
validate returns invalid with the "already passed" reason, and the verdict is
unchanged under any value of the evaluating machine's timezone (which the
source never consults: datetime.now is always called with the fixed business
zone). -/
theorem validate_past_rejected (p : Validador) (env : Env) (st : CacheSt)
    (fecha hora : String) (y mo d : Nat) (t : TimeHM)
    (hd : parse_date fecha = some (y, mo, d)) (ht : parse_time hora = some t)
    (hp : (DT.mk y mo d t.hour t.minute).key ≤ env.ahora.key) :
    validate p env st fecha hora = (⟨false, some msgYaPaso⟩, st) ∧
    ∀ z : Int, validate p (setHostTz env z) st fecha hora
      = validate p env st fecha hora := by
  refine ⟨validate_past p env st fecha hora y mo d t hd ht hp, ?_⟩
  intro z
  rfl

/-- Witness for C6: 2020-01-01 10:00 AM is in the past when the Lima clock
reads 2026-01-01 00:00. -/
theorem validate_past_rejected_witness :
    validate fixP (fixEnv ⟨2026, 1, 1, 0, 0⟩ (.ok ⟨true, true⟩) fetchFail) ⟨none, 0⟩
        "2020-01-01" "10:00 AM"
      = (⟨false, some msgYaPaso⟩, ⟨none, 0⟩) :=
  (validate_past_rejected fixP (fixEnv ⟨2026, 1, 1, 0, 0⟩ (.ok ⟨true, true⟩) fetchFail)
    ⟨none, 0⟩ "2020-01-01" "10:00 AM" 2020 1 1 ⟨10, 0⟩ (by decide) (by decide)
    (by decide)).1

/-! ### C5: schedule-fetch failure degrades to valid -/

/-- C5: for a well-formed future appointment, when the weekly schedule fetch
fails entirely validate degrades to a valid verdict: if every attempt of the
fetch raises (timeout/transport), the tenant's breaker failure counter
additionally increments by exactly one; if the circuit is already open the
fetch is skipped and the counter is unchanged. -/
theorem validate_degrades_on_fetch_failure (p : Validador) (env : Env) (st : CacheSt)
    (fecha hora : String) (y mo d : Nat) (t : TimeHM) (uid : String)
    (hid : p.id_empresa = some uid) (huid : uid ≠ "")
    (hd : parse_date fecha = some (y, mo, d)) (ht : parse_time hora = some t)
    (hf : env.ahora.key < (DT.mk y mo d t.hour t.minute).key)
    (hc : st.cache = none) :
    ((∀ i, env.horarioFetch i = .error ()) → st.failures < FAILURE_THRESHOLD →
       validate p env st fecha hora = (⟨true, none⟩, ⟨none, st.failures + 1⟩)) ∧
    (FAILURE_THRESHOLD ≤ st.failures →
       validate p env st fecha hora = (⟨true, none⟩, st)) := by
  constructor
  · intro hferr hcl
    rw [validate_future p env st fecha hora y mo d t hd ht hf]
    simp only [validateResto, hid,
      get_horario_fetch_fails env.horarioFetch st uid huid hc hcl hferr]
  · intro hop
    rw [validate_future p env st fecha hora y mo d t hd ht hf]
    simp only [validateResto, hid,
      get_horario_circuit_open env.horarioFetch st uid huid hc hop]

/-- Witness for C5: cold cache, closed breaker, all attempts raising — valid
verdict and counter 0 → 1. -/
theorem validate_degrades_on_fetch_failure_witness :
    validate fixP (fixEnv ⟨2026, 1, 1, 0, 0⟩ (.ok ⟨true, true⟩) fetchFail) ⟨none, 0⟩
        "2026-01-27" "02:00 PM" = (⟨true, none⟩, ⟨none, 1⟩) :=
  (validate_degrades_on_fetch_failure fixP
    (fixEnv ⟨2026, 1, 1, 0, 0⟩ (.ok ⟨true, true⟩) fetchFail) ⟨none, 0⟩
    "2026-01-27" "02:00 PM" 2026 1 27 ⟨14, 0⟩ "7" rfl (by decide) (by decide)
    (by decide) (by decide) rfl).1 (fun _ => rfl) (by decide)

/-! ### C7: closed-day sentinels -/

/-- C7 counterexample: the sentinel list of the source is the Spanish one
("NO DISPONIBLE", "CERRADO", "NO ATIENDE", "-", "N/A", ""), not the English
"closed"/"unavailable" of the claim: a Tuesday marked "closed" is NOT
rejected — the sentinel test misses it, the range parse then fails and the
validator degrades to valid, contradicting the claimed rejection. -/
theorem closed_sentinel_counterexample :
    validate fixP (fixEnv ⟨2020, 1, 1, 0, 0⟩ (.ok ⟨true, true⟩) fetchFail)
        ⟨some (fixSched (some "closed")), 0⟩ "2026-01-27" "02:00 PM"
      = (⟨true, none⟩, ⟨some (fixSched (some "closed")), 0⟩) := by
  decide

/-- C7 (amended): the closed-sentinels are the Spanish markers of the source
— case-insensitive "no disponible", "cerrado", "no atiende", "-", "n/a" —
and an absent or empty day entry is likewise rejected; in all cases the
verdict is invalid with a reason naming that day of the week (in particular a
day marked "Cerrado" is rejected with the day named). -/
theorem validate_closed_day_named (p : Validador) (env : Env) (st : CacheSt)
    (fecha hora : String) (y mo d : Nat) (t : TimeHM) (sched : Schedule) (uid : String)
    (hid : p.id_empresa = some uid) (huid : uid ≠ "")
    (hd : parse_date fecha = some (y, mo, d)) (ht : parse_time hora = some t)
    (hf : env.ahora.key < (DT.mk y mo d t.hour t.minute).key)
    (hc : st.cache = some sched) :
    (∀ s : String, sched.dia (pyWeekday y mo d) = some s → s ≠ "" →
       sentinelsNoAtencion.contains (pyUpper (pyStrip s)) = true →
       validate p env st fecha hora
         = (⟨false, some (msgNoAtencion (diaNombre (pyWeekday y mo d)))⟩, st)) ∧
    (sched.dia (pyWeekday y mo d) = none →
       validate p env st fecha hora
         = (⟨false, some (msgSinHorarioDia (diaNombre (pyWeekday y mo d)))⟩, st)) ∧
    (sched.dia (pyWeekday y mo d) = some "" →
       validate p env st fecha hora
         = (⟨false, some (msgSinHorarioDia (diaNombre (pyWeekday y mo d)))⟩, st)) := by
  refine ⟨?_, ?_, ?_⟩
  · intro s hdia hne hsent
    rw [validate_future p env st fecha hora y mo d t hd ht hf]
    simp only [validateResto, hid, get_horario_cache_hit env.horarioFetch st uid sched huid hc,
      hdia, hne, hsent]
    simp [hne]
  · intro hdia
    rw [validate_future p env st fecha hora y mo d t hd ht hf]
    simp only [validateResto, hid, get_horario_cache_hit env.horarioFetch st uid sched huid hc,
      hdia]
  · intro hdia
    rw [validate_future p env st fecha hora y mo d t hd ht hf]
    simp only [validateResto, hid, get_horario_cache_hit env.horarioFetch st uid sched huid hc,
      hdia]
    simp

/-- Witness for C7 (amended): a Tuesday marked "Cerrado" is rejected with the
reason naming martes. -/
theorem validate_closed_day_named_witness :
    validate fixP (fixEnv ⟨2020, 1, 1, 0, 0⟩ (.ok ⟨true, true⟩) fetchFail)
        ⟨some (fixSched (some "Cerrado")), 0⟩ "2026-01-27" "02:00 PM"
      = (⟨false, some (msgNoAtencion (diaNombre (pyWeekday 2026 1 27)))⟩,
         ⟨some (fixSched (some "Cerrado")), 0⟩) :=
  (validate_closed_day_named fixP (fixEnv ⟨2020, 1, 1, 0, 0⟩ (.ok ⟨true, true⟩) fetchFail)
    ⟨some (fixSched (some "Cerrado")), 0⟩ "2026-01-27" "02:00 PM" 2026 1 27 ⟨14, 0⟩
    (fixSched (some "Cerrado")) "7" rfl (by decide) (by decide) (by decide) (by decide)
    rfl).1 "Cerrado" (by decide) (by decide) (by decide)

/-! ### C8: Tuesday 09:00-18:00 with 60-minute appointments -/

/-- C8: with a Tuesday schedule of "09:00-18:00", duration 60, no blocked
times and an available slot, validate("2026-01-27", "02:00 PM") is valid for
any clock before that slot, while a request starting 17:01 the same day is
invalid because it would end at 18:01, past the 18:00 close, even though
17:01 lies inside the open range. -/
theorem validate_tuesday_examples (a : DT)
    (hf : a.key < (DT.mk 2026 1 27 14 0).key) :
    (validate fixP (fixEnv a (.ok ⟨true, true⟩) fetchFail)
        ⟨some (fixSched (some "09:00-18:00")), 0⟩ "2026-01-27" "02:00 PM"
      = (⟨true, none⟩, ⟨some (fixSched (some "09:00-18:00")), 0⟩)) ∧
    ((validate fixP (fixEnv a (.ok ⟨true, true⟩) fetchFail)
        ⟨some (fixSched (some "09:00-18:00")), 0⟩ "2026-01-27" "17:01").1.valid
      = false) := by
  have hf2 : a.key < (DT.mk 2026 1 27 17 1).key := by
    have hk : (DT.mk 2026 1 27 14 0).key ≤ (DT.mk 2026 1 27 17 1).key := by decide
    omega
  constructor
  · rw [validate_future fixP (fixEnv a (.ok ⟨true, true⟩) fetchFail)
      ⟨some (fixSched (some "09:00-18:00")), 0⟩ "2026-01-27" "02:00 PM"
      2026 1 27 ⟨14, 0⟩ (by decide) (by decide) hf]
    rfl
  · rw [validate_future fixP (fixEnv a (.ok ⟨true, true⟩) fetchFail)
      ⟨some (fixSched (some "09:00-18:00")), 0⟩ "2026-01-27" "17:01"
      2026 1 27 ⟨17, 1⟩ (by decide) (by decide) hf2]
    rfl

/-- Witness for C8 with the Lima clock at 2026-01-20 12:00. -/
theorem validate_tuesday_examples_witness :
    (validate fixP (fixEnv ⟨2026, 1, 20, 12, 0⟩ (.ok ⟨true, true⟩) fetchFail)
        ⟨some (fixSched (some "09:00-18:00")), 0⟩ "2026-01-27" "02:00 PM"
      = (⟨true, none⟩, ⟨some (fixSched (some "09:00-18:00")), 0⟩)) ∧
    ((validate fixP (fixEnv ⟨2026, 1, 20, 12, 0⟩ (.ok ⟨true, true⟩) fetchFail)
        ⟨some (fixSched (some "09:00-18:00")), 0⟩ "2026-01-27" "17:01").1.valid
      = false) :=
  validate_tuesday_examples ⟨2026, 1, 20, 12, 0⟩ (by decide)

/-! ### C9: a date that is neither today nor tomorrow asks for a time -/

/-- C9: recommendation with a parseable date, no time, and the date neither
today nor tomorrow in the business timezone returns the "give me a time"
prompt and never invokes the slot-suggestion upstream operation. -/
theorem recommendation_other_date_asks_time (env : Env) (fecha : String)
    (y mo d : Nat)
    (hp : parse_date (pyStrip fecha) = some (y, mo, d))
    (hhoy : (y, mo, d) ≠ (env.ahora.year, env.ahora.month, env.ahora.day))
    (hman : (y, mo, d) ≠ nextDay (env.ahora.year, env.ahora.month, env.ahora.day)) :
    recommendation env (some fecha) none
      = ⟨msgIndicaHora, none, none, none, false⟩ := by
  have hfz : fecha ≠ "" := by
    intro h
    rw [h] at hp
    rw [show parse_date (pyStrip "") = none from by decide] at hp
    cases hp
  simp [recommendation, truthy, hfz, hp, hhoy, hman]

/-- Witness for C9: 2026-03-05 when the Lima clock reads 2026-03-01. -/
theorem recommendation_other_date_asks_time_witness :
    recommendation (fixEnv ⟨2026, 3, 1, 10, 0⟩ (.ok ⟨true, true⟩) fetchFail)
        (some "2026-03-05") none
      = ⟨msgIndicaHora, none, none, none, false⟩ :=
  recommendation_other_date_asks_time
    (fixEnv ⟨2026, 3, 1, 10, 0⟩ (.ok ⟨true, true⟩) fetchFail) "2026-03-05"
    2026 3 5 (by decide) (by decide) (by decide)

/-! ### C10: business-level availability failures degrade to available -/

theorem check_availability_business_fail (env : Env) (d2 : Bool)
    (hav : env.avail = .ok ⟨false, d2⟩) (fecha hora : String) :
    check_availability env fecha hora = ⟨true, none⟩ := by
  unfold check_availability
  cases parse_date fecha with
  | none => rfl
  | some v =>
    cases parse_time hora with
    | none => rfl
    | some t =>
      rw [hav]
      rfl

/-- C10: when the exact-slot availability endpoint returns a well-formed
success:false body, _check_availability reports the slot available with no
error message, validate does not reject on that step (the Tuesday fixture is
accepted), and the recommendation exact-slot branch offers confirmation — the
business-failure message is never surfaced to the caller, and the
slot-suggestion operation is not invoked. -/
theorem business_failure_availability_permissive (env : Env) (d2 : Bool)
    (hav : env.avail = .ok ⟨false, d2⟩) :
    (∀ fecha hora, check_availability env fecha hora = ⟨true, none⟩) ∧
    (∀ a : DT, a.key < (DT.mk 2026 1 27 14 0).key →
       validate fixP (fixEnv a (.ok ⟨false, d2⟩) fetchFail)
           ⟨some (fixSched (some "09:00-18:00")), 0⟩ "2026-01-27" "02:00 PM"
         = (⟨true, none⟩, ⟨some (fixSched (some "09:00-18:00")), 0⟩)) ∧
    (∀ fecha hora : String, fecha ≠ "" → pyStrip hora ≠ "" →
       recommendation env (some fecha) (some hora)
         = ⟨"El " ++ fecha ++ " a las " ++ pyStrip hora ++
             " está disponible. ¿Confirmamos la cita?", none, none, none, false⟩) := by
  refine ⟨check_availability_business_fail env d2 hav, ?_, ?_⟩
  · intro a hfa
    rw [validate_future fixP (fixEnv a (.ok ⟨false, d2⟩) fetchFail)
      ⟨some (fixSched (some "09:00-18:00")), 0⟩ "2026-01-27" "02:00 PM"
      2026 1 27 ⟨14, 0⟩ (by decide) (by decide) hfa]
    rfl
  · intro fecha hora hfz hhz
    have hhz0 : hora ≠ "" := by
      intro h
      rw [h] at hhz
      exact hhz (by decide)
    simp only [recommendation]
    rw [if_pos ⟨by simp [truthy, hfz], by simp [truthy, hhz0], hhz⟩]
    rw [check_availability_business_fail env d2 hav]
    rfl

/-- Witness for C10 at a concrete environment, slot and strings. -/
theorem business_failure_availability_permissive_witness :
    (check_availability (fixEnv ⟨2026, 1, 1, 0, 0⟩ (.ok ⟨false, true⟩) fetchFail)
        "2026-01-27" "02:00 PM" = ⟨true, none⟩) ∧
    (validate fixP (fixEnv ⟨2026, 1, 1, 0, 0⟩ (.ok ⟨false, true⟩) fetchFail)
        ⟨some (fixSched (some "09:00-18:00")), 0⟩ "2026-01-27" "02:00 PM"
      = (⟨true, none⟩, ⟨some (fixSched (some "09:00-18:00")), 0⟩)) ∧
    (recommendation (fixEnv ⟨2026, 1, 1, 0, 0⟩ (.ok ⟨false, true⟩) fetchFail)
        (some "2026-03-05") (some "02:00 PM")
      = ⟨"El 2026-03-05 a las 02:00 PM está disponible. ¿Confirmamos la cita?",
         none, none, none, false⟩) :=
  ⟨(business_failure_availability_permissive
      (fixEnv ⟨2026, 1, 1, 0, 0⟩ (.ok ⟨false, true⟩) fetchFail) true rfl).1
      "2026-01-27" "02:00 PM",
   (business_failure_availability_permissive
      (fixEnv ⟨2026, 1, 1, 0, 0⟩ (.ok ⟨false, true⟩) fetchFail) true rfl).2.1
      ⟨2026, 1, 1, 0, 0⟩ (by decide),
   (business_failure_availability_permissive
      (fixEnv ⟨2026, 1, 1, 0, 0⟩ (.ok ⟨false, true⟩) fetchFail) true rfl).2.2
      "2026-03-05" "02:00 PM" (by decide) (by decide)⟩

end AgenteCitas
